import Mathlib

/-!
Verification of the Telegram lead-collection bot (`src/telegrambot/bot.py`)
against its natural-language specification.

The embedding is shallow: message texts are `List Char`, the CSV lead log is
an optional list of rows (`none` = file absent), per-user `user_data` is a
record, and the two generation backends (OpenAI / Ollama) are modelled by
oracle outcomes passed as explicit inputs (the code only branches on whether
the call raised and on the shape of the returned payload).  Python's `\s`
and `str.strip()` both use `Py_UNICODE_ISSPACE`, modelled by `pyIsSpace`.
-/

namespace TGBot

/-- Message/text payloads are lists of characters. -/
abbrev Text := List Char

/-- Convert a Lean string literal into the `Text` representation. -/
def toText (s : String) : Text := s.toList

/-- CPython's `Py_UNICODE_ISSPACE`, the whitespace notion used both by
`str.strip()` and by `\s` in `str` regex patterns. -/
def pyIsSpace (c : Char) : Bool :=
  let n := c.toNat
  (9 ≤ n && n ≤ 13) || (28 ≤ n && n ≤ 31) || n = 32 || n = 0x85 ||
  n = 0xa0 || n = 0x1680 || (0x2000 ≤ n && n ≤ 0x200a) || n = 0x2028 ||
  n = 0x2029 || n = 0x202f || n = 0x205f || n = 0x3000

/-- Python `str.strip()`: drop leading and trailing whitespace. -/
def pyStrip (l : Text) : Text :=
  ((l.dropWhile pyIsSpace).reverse.dropWhile pyIsSpace).reverse

/-- A character allowed inside the three pieces of `EMAIL_RE`
(the regex character class `[^\s@]`): not whitespace and not `@`. -/
def isAtom (c : Char) : Bool := !pyIsSpace c && c != '@'

/-- `notAt c` holds when `c` is not the `@` sign (used to locate the
first `@` the way the regex engine does). -/
def notAt (c : Char) : Bool := c != '@'

/-- The regex `^[^\s@]+@[^\s@]+\.[^\s@]+$` from `bot.py` line 71, matched
against a whole string (the `$` anchor taken at the very end), as an
executable matcher.  The part before the first `@` must be a non-empty
run of `[^\s@]` characters; the part after it must consist of `[^\s@]`
characters and contain a `.` that is neither its first nor its last
character (so that both regex pieces around `\.` are non-empty). -/
def EMAIL_RE_core (l : Text) : Bool :=
  match l.dropWhile notAt with
  | [] => false
  | _ :: rest =>
      !(l.takeWhile notAt).isEmpty && (l.takeWhile notAt).all isAtom &&
      rest.all isAtom && decide ('.' ∈ (rest.drop 1).dropLast)

/-- `EMAIL_RE.match(l)`: in Python the `$` anchor also matches just before
a newline that ends the string, so the regex accepts `l` itself or `l`
minus one trailing newline. -/
def EMAIL_RE_match (l : Text) : Bool :=
  EMAIL_RE_core l ||
    (decide (l.getLast? = some (Char.ofNat 10)) && EMAIL_RE_core l.dropLast)

/-- The spec's wording of the email shape (`local@domain.tld`):
"non-whitespace characters, one `@`, then non-whitespace characters, a `.`,
and more non-whitespace characters".  Stated as in the spec, to be compared
with `EMAIL_RE_core` which is translated from the source regex. -/
def matchesShape (l : Text) : Prop :=
  ∃ a b c : Text,
    l = a ++ '@' :: (b ++ '.' :: c) ∧
    a ≠ [] ∧ b ≠ [] ∧ c ≠ [] ∧
    (∀ x ∈ l, pyIsSpace x = false) ∧
    l.count '@' = 1

/- ### List helper lemmas for the regex/shape equivalence -/

theorem takeWhile_app_stop (p : Char → Bool) (a : List Char) (y : Char)
    (r : List Char) (ha : ∀ x ∈ a, p x = true) (hy : p y = false) :
    (a ++ y :: r).takeWhile p = a := by
  induction a with
  | nil => simp [List.takeWhile, hy]
  | cons z a ih =>
      have hz : p z = true := ha z (by simp)
      simp only [List.cons_append, List.takeWhile, hz]
      exact congrArg (z :: ·) (ih fun x hx => ha x (by simp [hx]))

theorem dropWhile_app_stop (p : Char → Bool) (a : List Char) (y : Char)
    (r : List Char) (ha : ∀ x ∈ a, p x = true) (hy : p y = false) :
    (a ++ y :: r).dropWhile p = y :: r := by
  induction a with
  | nil => simp [List.dropWhile, hy]
  | cons z a ih =>
      have hz : p z = true := ha z (by simp)
      simp only [List.cons_append, List.dropWhile, hz]
      exact ih fun x hx => ha x (by simp [hx])

theorem dropWhile_head_false (p : Char → Bool) :
    ∀ (l : List Char) (y : Char) (r : List Char),
      l.dropWhile p = y :: r → p y = false := by
  intro l
  induction l with
  | nil => intro y r h; simp [List.dropWhile] at h
  | cons z l ih =>
      intro y r h
      by_cases hz : p z = true
      · simp only [List.dropWhile, hz] at h
        exact ih y r h
      · have hz' : p z = false := by simpa using hz
        simp only [List.dropWhile, hz'] at h
        cases h
        exact hz'

/-- The spec's description of the email shape and the source regex
`EMAIL_RE` agree on every string. -/
theorem matchesShape_iff_core (l : Text) :
    matchesShape l ↔ EMAIL_RE_core l = true := by
  constructor
  · rintro ⟨a, b, c, rfl, ha, hb, hc, hws, hcount⟩
    -- from `count '@' = 1`, none of the three pieces contains `@`
    simp [List.count_append, List.count_cons] at hcount
    have hA : '@' ∉ a := by
      rw [← List.count_eq_zero]; omega
    have hB : '@' ∉ b := by
      rw [← List.count_eq_zero]; omega
    have hC : '@' ∉ c := by
      rw [← List.count_eq_zero]; omega
    have hatomA : ∀ x ∈ a, isAtom x = true := by
      intro x hx
      have hw := hws x (by simp [hx])
      have hne : x ≠ '@' := fun h => hA (h ▸ hx)
      simp [isAtom, hw, hne]
    have hatomB : ∀ x ∈ b, isAtom x = true := by
      intro x hx
      have hw := hws x (by simp [hx])
      have hne : x ≠ '@' := fun h => hB (h ▸ hx)
      simp [isAtom, hw, hne]
    have hatomC : ∀ x ∈ c, isAtom x = true := by
      intro x hx
      have hw := hws x (by simp [hx])
      have hne : x ≠ '@' := fun h => hC (h ▸ hx)
      simp [isAtom, hw, hne]
    have hAnot : ∀ x ∈ a, notAt x = true := by
      intro x hx
      have hne : x ≠ '@' := fun h => hA (h ▸ hx)
      simp [notAt, hne]
    have htw : ((a ++ '@' :: (b ++ '.' :: c)).takeWhile notAt) = a :=
      takeWhile_app_stop notAt a '@' (b ++ '.' :: c) hAnot (by simp [notAt])
    have hdw :
        ((a ++ '@' :: (b ++ '.' :: c)).dropWhile notAt) = '@' :: (b ++ '.' :: c) :=
      dropWhile_app_stop notAt a '@' (b ++ '.' :: c) hAnot (by simp [notAt])
    unfold EMAIL_RE_core
    rw [hdw, htw]
    have hrest : ∀ x ∈ b ++ '.' :: c, isAtom x = true := by
      intro x hx
      rcases List.mem_append.mp hx with hx | hx
      · exact hatomB x hx
      · rcases List.mem_cons.mp hx with rfl | hx
        · decide
        · exact hatomC x hx
    obtain ⟨hbh, b', rfl⟩ := List.exists_cons_of_ne_nil hb
    obtain ⟨c', lc, hcc⟩ := (List.eq_nil_or_concat c).resolve_left hc
    rw [List.concat_eq_append] at hcc
    subst hcc
    simp only [Bool.and_eq_true, decide_eq_true_eq]
    refine ⟨⟨⟨?_, ?_⟩, ?_⟩, ?_⟩
    · cases a with
      | nil => exact absurd rfl ha
      | cons x a => simp
    · exact List.all_eq_true.mpr hatomA
    · exact List.all_eq_true.mpr hrest
    · have h1 : (((hbh :: b') ++ '.' :: (c' ++ [lc])).drop 1) =
          (b' ++ '.' :: c') ++ [lc] := by
        simp [List.append_assoc]
      rw [h1, List.dropLast_concat]
      simp
  · intro h
    unfold EMAIL_RE_core at h
    split at h
    · exact absurd h (by simp)
    · rename_i y rest heq
      simp only [Bool.and_eq_true, decide_eq_true_eq] at h
      obtain ⟨⟨⟨hne, hallA⟩, hallR⟩, hmid⟩ := h
      have hy : notAt y = false := dropWhile_head_false notAt l y rest heq
      have hy' : y = '@' := by simpa [notAt] using hy
      subst hy'
      set A := l.takeWhile notAt with hAdef
      have hl : A ++ '@' :: rest = l := by
        rw [← heq, hAdef, List.takeWhile_append_dropWhile]
      -- carve the dot with non-empty pieces around it out of `rest`
      obtain ⟨hbh, t, rfl⟩ : ∃ z t, rest = z :: t := by
        cases rest with
        | nil => simp at hmid
        | cons z t => exact ⟨z, t, rfl⟩
      simp only [List.drop_succ_cons, List.drop_zero] at hmid
      have ht : t ≠ [] := by
        intro h0; rw [h0] at hmid; simp at hmid
      obtain ⟨p₁, p₂, hdl⟩ := List.append_of_mem hmid
      obtain ⟨lc, hT⟩ : ∃ lc, t = (p₁ ++ '.' :: p₂) ++ [lc] := by
        refine ⟨t.getLast ht, ?_⟩
        conv_lhs => rw [← List.dropLast_append_getLast ht]
        rw [hdl]
      refine ⟨A, hbh :: p₁, p₂ ++ [lc], ?_, ?_, ?_, ?_, ?_, ?_⟩
      · rw [← hl, hT]; simp [List.append_assoc]
      · intro h0; rw [h0] at hne; simp at hne
      · simp
      · simp
      · -- every character of `l` is non-whitespace
        intro x hx
        rw [← hl] at hx
        rcases List.mem_append.mp hx with hx | hx
        · have := List.all_eq_true.mp hallA x hx
          simp only [isAtom, Bool.and_eq_true, Bool.not_eq_true'] at this
          exact this.1
        · rcases List.mem_cons.mp hx with rfl | hx
          · decide
          · have := List.all_eq_true.mp hallR x hx
            simp only [isAtom, Bool.and_eq_true, Bool.not_eq_true'] at this
            exact this.1
      · -- exactly one `@` in `l`
        have hcA : A.count '@' = 0 := by
          rw [List.count_eq_zero]
          intro hmem
          have := List.all_eq_true.mp hallA '@' hmem
          simp [isAtom] at this
        have hcR : (hbh :: t).count '@' = 0 := by
          rw [List.count_eq_zero]
          intro hmem
          have := List.all_eq_true.mp hallR '@' hmem
          simp [isAtom] at this
        calc l.count '@' = (A ++ '@' :: (hbh :: t)).count '@' := by
              rw [hl]
          _ = 1 := by simp [List.count_append, List.count_cons, hcA, hcR]

/- ### Data model -/

/-- A row of the CSV lead log. -/
abbrev Row := List Text

/-- One entry of the per-user conversational memory
(`{"role": role, "content": content}`). -/
structure MemEntry where
  role : Text
  content : Text
deriving DecidableEq

/-- The per-user `context.user_data` dictionary: the keys the bot ever
writes (`lead_need`, `lead_name`, `lead_email`, `mem`); a key that was
never written is `none` (resp. `[]` for `mem`, whose read uses
`get("mem", [])`). -/
structure UserData where
  lead_need : Option Text
  lead_name : Option Text
  lead_email : Option Text
  mem : List MemEntry
deriving DecidableEq

/-- A fresh `user_data` dictionary (no key written yet). -/
def udEmpty : UserData := ⟨none, none, none, []⟩

/-- The identity metadata of `update.effective_user`: numeric id and
optional username. -/
structure TgUser where
  id : Nat
  username : Option Text
deriving DecidableEq

/-- The conversation-flow state of one user: `Idle` means no active
collection session; the other three are the source's
`COLLECT_NAME`, `COLLECT_EMAIL`, `COLLECT_NOTE`. -/
inductive ConvState
  | Idle
  | CollectName
  | CollectEmail
  | CollectNote
deriving DecidableEq

/-- Conversation state plus the per-user data store. -/
structure FlowState where
  conv : ConvState
  ud : UserData
deriving DecidableEq

/-- The inbound events relevant to the collection flow: the `/contact`
command (entry point), the `/cancel` command (fallback), or a plain
non-command text message. -/
inductive FlowInput
  | contactCmd
  | cancelCmd
  | text (s : Text)
deriving DecidableEq

/- ### Message constants (verbatim from the source) -/

/-- Default value of `lead_need` (`"عام"`, i.e. "general"). -/
def needDefault : Text := toText "عام"

def askName : Text := toText "سنأخذ بعض البيانات البسيطة. ما اسمك الكامل؟"

def askEmail : Text := toText "بريدك الإلكتروني؟"

def emailRetry : Text := toText "صيغة البريد غير صحيحة — أعد إدخاله."

def askNote : Text := toText "صف باختصار احتياجك أو نوع المشروع:"

def thanksMsg : Text :=
  toText "شكرًا لك! تم استلام بياناتك وسنتواصل معك قريبًا عبر البريد."

def cancelMsg : Text := toText "تم إلغاء العملية. يمكنك البدء من جديد في أي وقت."

/- ### Lead store (CSV file) -/

/-- The header row written by `ensure_leads_csv`. -/
def csvHeader : Row :=
  [toText "timestamp", toText "name", toText "email", toText "need",
   toText "from", toText "username", toText "note"]

/-- `ensure_leads_csv()`: if the file does not exist (`none`), create it
with the single header row; otherwise leave its rows untouched. -/
def ensure_leads_csv : Option (List Row) → List Row
  | none => [csvHeader]
  | some rows => rows

/-- The `from` column: `f"tg://user?id={update.effective_user.id}"`. -/
def mkFrom (u : TgUser) : Text := toText "tg://user?id=" ++ (toString u.id).toList

/-- `save_lead`: make sure the file exists, then append exactly one row
`[timestamp, name, email, need, from, username, note]`.  The timestamp
(`datetime.utcnow().isoformat()`) is an external input `ts`. -/
def save_lead (name email need : Text) (u : TgUser) (note ts : Text)
    (file : Option (List Row)) : List Row :=
  ensure_leads_csv file ++
    [[ts, name, email, need, mkFrom u, u.username.getD [], note]]

/- ### Conversational memory -/

/-- Python list slicing `l[-n:]` (note `l[-0:]` is the whole list). -/
def pySliceLast (n : Nat) (l : List α) : List α :=
  if n = 0 then l else l.drop (l.length - n)

/-- The last `n` elements of a list. -/
def takeLast (n : Nat) (l : List α) : List α := l.drop (l.length - n)

/-- `add_user_memory`: append one `{role, content}` entry and keep only the
last `limit` entries (`mem[-limit:]`). -/
def add_user_memory (ud : UserData) (role content : Text) (limit : Nat) :
    UserData :=
  { ud with mem := pySliceLast limit (ud.mem ++ [⟨role, content⟩]) }

/-- A sequence of `add_user_memory` calls as made by the code
(`limit` always left at its default 6). -/
def rememberAll (ud : UserData) (es : List MemEntry) : UserData :=
  es.foldl (fun u e => add_user_memory u e.role e.content 6) ud

/- ### Collection-flow handlers (one per source handler) -/

/-- `contact_start`: set `lead_need` to the default and prompt for the
name; next state `COLLECT_NAME`. -/
def contact_start (ud : UserData) : UserData × ConvState × Text :=
  ({ ud with lead_need := some needDefault }, .CollectName, askName)

/-- `collect_name`: store the stripped text as `lead_name`, prompt for the
email; next state `COLLECT_EMAIL`. -/
def collect_name (ud : UserData) (msg : Text) : UserData × ConvState × Text :=
  ({ ud with lead_name := some (pyStrip msg) }, .CollectEmail, askEmail)

/-- `collect_email`: strip the text; if it fails `EMAIL_RE`, re-prompt and
stay in `COLLECT_EMAIL`; otherwise store it as `lead_email` and move to
`COLLECT_NOTE`. -/
def collect_email (ud : UserData) (msg : Text) : UserData × ConvState × Text :=
  let email := pyStrip msg
  if EMAIL_RE_match email then
    ({ ud with lead_email := some email }, .CollectNote, askNote)
  else
    (ud, .CollectEmail, emailRetry)

/-- `collect_note`: read the session fields back from `user_data`
(with their `get` defaults), write the lead row, thank the user, and end
the conversation.  `user_data` itself is not modified. -/
def collect_note (ud : UserData) (msg : Text) (u : TgUser) (ts : Text)
    (file : Option (List Row)) : List Row × Text :=
  (save_lead (ud.lead_name.getD []) (ud.lead_email.getD [])
     (ud.lead_need.getD needDefault) u (pyStrip msg) ts file,
   thanksMsg)

/-- One dispatch step of the `ConversationHandler`: `/contact` is an entry
point only when no session is active; `/cancel` is a fallback of the
active session; in each collection state a non-command text goes to that
state's handler; anything else is not handled by the conversation
(no state change, no reply, no write).  Returns the new flow state, the
lead-log file, and the reply message (if any). -/
def convStep (u : TgUser) (ts : Text) (st : FlowState)
    (file : Option (List Row)) (inp : FlowInput) :
    FlowState × Option (List Row) × Option Text :=
  match st.conv, inp with
  | .Idle, .contactCmd =>
      let r := contact_start st.ud
      (⟨r.2.1, r.1⟩, file, some r.2.2)
  | .Idle, _ => (st, file, none)
  | _, .cancelCmd => (⟨.Idle, st.ud⟩, file, some cancelMsg)
  | .CollectName, .text s =>
      let r := collect_name st.ud s
      (⟨r.2.1, r.1⟩, file, some r.2.2)
  | .CollectName, .contactCmd => (st, file, none)
  | .CollectEmail, .text s =>
      let r := collect_email st.ud s
      (⟨r.2.1, r.1⟩, file, some r.2.2)
  | .CollectEmail, .contactCmd => (st, file, none)
  | .CollectNote, .text s =>
      let r := collect_note st.ud s u ts file
      (⟨.Idle, st.ud⟩, some r.1, some r.2)
  | .CollectNote, .contactCmd => (st, file, none)

/-- Run the collection flow over a list of inbound events. -/
def runFlow (u : TgUser) (ts : Text) :
    FlowState × Option (List Row) → List FlowInput → FlowState × Option (List Row)
  | sf, [] => sf
  | (st, f), i :: is =>
      let r := convStep u ts st f i
      runFlow u ts (r.1, r.2.1) is

/- ### Service catalog and callback handler -/

/-- One entry of the static `SERVICES` dict. -/
structure Service where
  name : Text
  desc : Text
  starts_from : Text
deriving DecidableEq

/-- The static service catalog (keys and entries verbatim from the
source; dict insertion order preserved as an association list, keys
unique). -/
def SERVICES : List (Text × Service) :=
  [ (toText "web",
     ⟨toText "تطوير مواقع",
      toText "مواقع سريعة آمنة (Next.js/Django) مع لوحة تحكم وتهيئة SEO.",
      toText "1000$"⟩),
    (toText "mobile",
     ⟨toText "تطبيقات جوال",
      toText "تطبيقات iOS/Android (Flutter/React Native) مع نشر للمتاجر.",
      toText "1500$"⟩),
    (toText "ai",
     ⟨toText "حلول ذكاء اصطناعي",
      toText "بوتات محادثة، تلخيص تلقائي، تصنيف بيانات، وذكاء مدمج في المنتجات.",
      toText "1200$"⟩),
    (toText "uiux",
     ⟨toText "UI/UX",
      toText "تصميم تجارب استخدام حديثة مع نماذج أولية تفاعلية.",
      toText "600$"⟩),
    (toText "maintenance",
     ⟨toText "صيانة ودعم",
      toText "مراقبة، نسخ احتياطي، تحديثات أمنية، ودعم شهري.",
      toText "200$/شهر"⟩) ]

/-- `SERVICES.get(key)`. -/
def svcLookup (key : Text) : Option Service := SERVICES.lookup key

/-- Fixed pieces of the service card between the interpolated fields. -/
def svcCard1 : Text := toText "**"

def svcCard2 : Text := toText "**\n"

def svcCard3 : Text := toText "\n\nالسعر يبدأ من: "

def svcCard4 : Text :=
  toText " (يتغير حسب المتطلبات).\nأخبرني باحتياجك أو اكتب /contact لترك بياناتك."

/-- The message shown for a known service (the `msg` f-string of
`on_service_click`). -/
def renderService (s : Service) : Text :=
  svcCard1 ++ s.name ++ svcCard2 ++ s.desc ++ svcCard3 ++ s.starts_from ++ svcCard4

/-- The generic error message for an unknown service key. -/
def svcErr : Text := toText "حدث خطأ — جرّب مرة أخرى."

/-- `query.data.split(":", 1)[1]`: everything after the first `:`.
Returns `none` when the payload has no `:` at all (in Python this indexing
would raise; the handler's `^svc:` pattern prevents it). -/
def svcKeyOf (data : Text) : Option Text :=
  if decide (':' ∈ data) then some ((data.dropWhile (fun c => c != ':')).tail)
  else none

/-- `on_service_click`: decode the key from the callback payload and
answer either with the service card or with the generic error message.
`none` models an uncaught exception (never reached for `svc:`-prefixed
payloads). -/
def on_service_click (data : Text) : Option Text :=
  (svcKeyOf data).map fun key =>
    match svcLookup key with
    | none => svcErr
    | some s => renderService s

/- ### Response provider chain (`ai_generate_reply`) -/

/-- The configuration the chain branches on: `OPENAI_API_KEY` (provider #1
enabled iff present) and `USE_OLLAMA` (provider #2 enabled iff true). -/
structure AIConfig where
  OPENAI_API_KEY : Option Text
  USE_OLLAMA : Bool
deriving DecidableEq

/-- Outcome of one OpenAI API attempt: the content of the first choice, or
any raised exception (network, auth, malformed response, ...). -/
inductive OpenAIOutcome
  | ok (content : Text)
  | err
deriving DecidableEq

/-- Outcome of one Ollama attempt: a JSON dict carrying
`message.content`; some other parseable JSON value (whose
`json.dumps` serialization is `payload`); or any raised exception
(network, timeout, unparseable body, ...). -/
inductive OllamaOutcome
  | chat (content : Text)
  | other (payload : Text)
  | err
deriving DecidableEq

/-- Which providers a call actually invoked, in order. -/
inductive ProviderTag
  | openai
  | ollama
  | offline
deriving DecidableEq

/-- The fixed part of the offline template before the echoed user text. -/
def offlinePre : Text := toText "> رد ذكي مبسّط (بدون API)\nفهمت طلبك: "

/-- The fixed part of the offline template after the echoed user text. -/
def offlinePost : Text :=
  toText "\n\nيمكننا تنفيذ الحل عبر: Frontend (Next.js) + Backend (FastAPI) + قاعدة بيانات PostgreSQL + استضافة Docker.\nللحصول على عرض دقيق اكتب /contact وارسل بريدك ونبذة عن مشروعك."

/-- Provider #3: the deterministic offline template echoing the user's
text. -/
def offlineReply (user_text : Text) : Text :=
  offlinePre ++ user_text ++ offlinePost

/-- Stage 2 and 3 of the chain: try Ollama when enabled (returning the
stripped chat content, or the serialized payload truncated to 800
characters when the JSON lacks the expected shape), otherwise fall
through to the offline template. -/
def ollamaStage (cfg : AIConfig) (user_text : Text) (oll : OllamaOutcome)
    (tried : List ProviderTag) : Text × List ProviderTag :=
  if cfg.USE_OLLAMA then
    match oll with
    | .chat content => (pyStrip content, tried ++ [.ollama])
    | .other payload => (payload.take 800, tried ++ [.ollama])
    | .err => (offlineReply user_text, tried ++ [.ollama, .offline])
  else
    (offlineReply user_text, tried ++ [.offline])

/-- `ai_generate_reply`: try OpenAI when a key is configured (returning
the stripped completion), fall through to the Ollama stage on an
exception, and end in the offline template.  The conversational memory
`mem` only feeds the prompt handed to the providers, which are modelled
by the oracle outcomes `oai` and `oll`.  Also returns the list of
providers invoked. -/
def ai_generate_reply (cfg : AIConfig) (_mem : List MemEntry)
    (user_text : Text) (oai : OpenAIOutcome) (oll : OllamaOutcome) :
    Text × List ProviderTag :=
  match cfg.OPENAI_API_KEY, oai with
  | some _, .ok content => (pyStrip content, [.openai])
  | some _, .err => ollamaStage cfg user_text oll [.openai]
  | none, _ => ollamaStage cfg user_text oll []

/- ### Sliding-window lemmas for the memory -/

theorem takeLast_of_length_le {α : Type} {n : Nat} {l : List α}
    (h : l.length ≤ n) : takeLast n l = l := by
  simp [takeLast, Nat.sub_eq_zero_of_le h]

theorem takeLast_cons_of_le {α : Type} {n : Nat} (x : α) {l : List α}
    (h : n ≤ l.length) : takeLast n (x :: l) = takeLast n l := by
  have h1 : (x :: l).length - n = (l.length - n) + 1 := by
    simp only [List.length_cons]; omega
  simp only [takeLast, h1, List.drop_succ_cons]

theorem length_takeLast_le {α : Type} (n : Nat) (l : List α) :
    (takeLast n l).length ≤ n := by
  simp only [takeLast, List.length_drop]; omega

theorem takeLast_append_takeLast {α : Type} (n : Nat) (l r : List α) :
    takeLast n (takeLast n l ++ r) = takeLast n (l ++ r) := by
  induction l with
  | nil => simp [takeLast]
  | cons x l ih =>
      by_cases h : (x :: l).length ≤ n
      · rw [takeLast_of_length_le h]
      · have h' : n ≤ l.length := by simp only [List.length_cons] at h; omega
        rw [takeLast_cons_of_le x h', ih, List.cons_append,
          takeLast_cons_of_le x (by simp; omega)]

theorem pySliceLast_six {α : Type} (l : List α) :
    pySliceLast 6 l = takeLast 6 l := by
  simp [pySliceLast, takeLast]

theorem rememberAll_mem (es : List MemEntry) :
    ∀ ud : UserData, ud.mem.length ≤ 6 →
      (rememberAll ud es).mem = takeLast 6 (ud.mem ++ es) := by
  induction es with
  | nil =>
      intro ud h
      simp [rememberAll, takeLast_of_length_le h]
  | cons e es ih =>
      intro ud h
      have hstep : (add_user_memory ud e.role e.content 6).mem =
          takeLast 6 (ud.mem ++ [e]) := by
        show pySliceLast 6 (ud.mem ++ [⟨e.role, e.content⟩]) =
          takeLast 6 (ud.mem ++ [e])
        rw [pySliceLast_six]
      have h2 : (add_user_memory ud e.role e.content 6).mem.length ≤ 6 := by
        rw [hstep]; exact length_takeLast_le 6 _
      calc (rememberAll ud (e :: es)).mem
          = (rememberAll (add_user_memory ud e.role e.content 6) es).mem := rfl
        _ = takeLast 6 ((add_user_memory ud e.role e.content 6).mem ++ es) :=
            ih _ h2
        _ = takeLast 6 (takeLast 6 (ud.mem ++ [e]) ++ es) := by rw [hstep]
        _ = takeLast 6 ((ud.mem ++ [e]) ++ es) := takeLast_append_takeLast 6 _ _
        _ = takeLast 6 (ud.mem ++ e :: es) := by
            rw [List.append_assoc]; rfl

/-- C3: starting from an empty per-user memory, any sequence of `remember`
calls leaves exactly the last 6 entries in insertion order (so the store
never exceeds 6 entries and evicts oldest-first); in particular, after
inserting 10 entries the transcript is exactly entries 5 through 10. -/
theorem c3_memory_window :
    (∀ es : List MemEntry, (rememberAll udEmpty es).mem = takeLast 6 es) ∧
    (∀ es : List MemEntry, (rememberAll udEmpty es).mem.length ≤ 6) ∧
    (∀ e₁ e₂ e₃ e₄ e₅ e₆ e₇ e₈ e₉ e₁₀ : MemEntry,
      (rememberAll udEmpty [e₁, e₂, e₃, e₄, e₅, e₆, e₇, e₈, e₉, e₁₀]).mem =
        [e₅, e₆, e₇, e₈, e₉, e₁₀]) := by
  have hbase : ∀ es : List MemEntry,
      (rememberAll udEmpty es).mem = takeLast 6 es := by
    intro es
    have := rememberAll_mem es udEmpty (by simp [udEmpty])
    simpa [udEmpty] using this
  refine ⟨hbase, ?_, ?_⟩
  · intro es; rw [hbase es]; exact length_takeLast_le 6 es
  · intro e₁ e₂ e₃ e₄ e₅ e₆ e₇ e₈ e₉ e₁₀
    rw [hbase]
    rfl

/- ### C5: lead-store initialization -/

/-- C5: `ensure_leads_csv` creates the log with exactly the fixed header
row if and only if the file does not exist, leaves an existing file's
rows untouched, and is idempotent (no duplicated header, no truncation).
The CSV columns are `timestamp,name,email,need,from,username,note`,
`from` being the contact-handle column. -/
theorem c5_ensure_initialized :
    ensure_leads_csv none = [csvHeader] ∧
    (∀ rows : List Row, ensure_leads_csv (some rows) = rows) ∧
    (∀ f : Option (List Row),
      ensure_leads_csv (some (ensure_leads_csv f)) = ensure_leads_csv f) :=
  ⟨rfl, fun _ => rfl, fun _ => rfl⟩

/- ### C6: catalog lookup -/

theorem svcKeyOf_prefixed (k : Text) :
    svcKeyOf (toText "svc:" ++ k) = some k := rfl

/-- C6: a callback for a key present in the static catalog yields the
service card carrying that entry's name, description and starting price;
an absent key yields the generic error message; in both cases the handler
returns a message (it never raises). -/
theorem c6_catalog_lookup :
    (∀ (k : Text) (s : Service), svcLookup k = some s →
      on_service_click (toText "svc:" ++ k) = some (renderService s) ∧
      (∃ p q, renderService s = p ++ s.name ++ q) ∧
      (∃ p q, renderService s = p ++ s.desc ++ q) ∧
      (∃ p q, renderService s = p ++ s.starts_from ++ q)) ∧
    (∀ k : Text, svcLookup k = none →
      on_service_click (toText "svc:" ++ k) = some svcErr) ∧
    (∀ k : Text, (on_service_click (toText "svc:" ++ k)).isSome = true) := by
  refine ⟨?_, ?_, ?_⟩
  · intro k s h
    refine ⟨?_, ?_, ?_, ?_⟩
    · simp [on_service_click, svcKeyOf_prefixed, h]
    · exact ⟨svcCard1, svcCard2 ++ s.desc ++ svcCard3 ++ s.starts_from ++ svcCard4,
        by simp [renderService, List.append_assoc]⟩
    · exact ⟨svcCard1 ++ s.name ++ svcCard2, svcCard3 ++ s.starts_from ++ svcCard4,
        by simp [renderService, List.append_assoc]⟩
    · exact ⟨svcCard1 ++ s.name ++ svcCard2 ++ s.desc ++ svcCard3, svcCard4,
        by simp [renderService, List.append_assoc]⟩
  · intro k h
    simp [on_service_click, svcKeyOf_prefixed, h]
  · intro k
    simp [on_service_click, svcKeyOf_prefixed]

/-- The first catalog entry, used to instantiate `c6_catalog_lookup`. -/
def svcWeb : Service :=
  ⟨toText "تطوير مواقع",
   toText "مواقع سريعة آمنة (Next.js/Django) مع لوحة تحكم وتهيئة SEO.",
   toText "1000$"⟩

theorem c6_catalog_lookup_witness :
    svcLookup (toText "web") = some svcWeb ∧
    on_service_click (toText "svc:" ++ toText "web") = some (renderService svcWeb) :=
  ⟨by decide, (c6_catalog_lookup.1 (toText "web") svcWeb (by decide)).1⟩

/- ### C4: provider priority -/

/-- C4: when an OpenAI key is configured and the call succeeds, the chain
returns that (stripped) completion and invokes neither Ollama nor the
offline template — the result does not even depend on the Ollama oracle;
when OpenAI fails and Ollama is disabled, the offline template is
returned, and it contains the user's text verbatim. -/
theorem c4_provider_priority :
    (∀ (k : Text) (b : Bool) (mem : List MemEntry) (ut s : Text)
        (oll : OllamaOutcome),
      ai_generate_reply ⟨some k, b⟩ mem ut (.ok s) oll =
        (pyStrip s, [ProviderTag.openai])) ∧
    (∀ (k : Text) (mem : List MemEntry) (ut : Text) (oll : OllamaOutcome),
      ai_generate_reply ⟨some k, false⟩ mem ut .err oll =
        (offlineReply ut, [ProviderTag.openai, ProviderTag.offline])) ∧
    (∀ ut : Text, ∃ p q, offlineReply ut = p ++ ut ++ q) :=
  ⟨fun _ _ _ _ _ _ => rfl, fun _ _ _ _ => rfl,
   fun _ => ⟨offlinePre, offlinePost, rfl⟩⟩

/- ### C9: offline determinism -/

/-- C9: with no OpenAI key configured and Ollama disabled, the reply is a
pure function of the user text: any two calls with the same text (and the
same memory) agree, and both return the offline template, which embeds
the user text verbatim. -/
theorem c9_offline_deterministic :
    ∀ (mem : List MemEntry) (ut : Text) (oai oai' : OpenAIOutcome)
      (oll oll' : OllamaOutcome),
      ai_generate_reply ⟨none, false⟩ mem ut oai oll =
        ai_generate_reply ⟨none, false⟩ mem ut oai' oll' ∧
      (ai_generate_reply ⟨none, false⟩ mem ut oai oll).1 = offlineReply ut ∧
      ∃ p q, offlineReply ut = p ++ ut ++ q :=
  fun _ _ _ _ _ _ => ⟨rfl, rfl, offlinePre, offlinePost, rfl⟩

/- ### C7: provider failures never escape -/

/-- C7 (amended): network/timeout/unparseable failures of either backend
are absorbed by falling through to the next provider; a parseable Ollama
payload without the expected `message.content` shape is absorbed by
returning its serialization truncated to 800 characters instead of
falling through; in every failure combination the caller gets a reply,
and that reply is non-empty (given that a JSON serialization is never the
empty string). -/
theorem c7_failures_absorbed :
    (∀ (mem : List MemEntry) (ut : Text) (oai : OpenAIOutcome)
        (oll : OllamaOutcome),
      ai_generate_reply ⟨none, false⟩ mem ut oai oll =
        (offlineReply ut, [ProviderTag.offline])) ∧
    (∀ (k : Text) (mem : List MemEntry) (ut : Text) (oll : OllamaOutcome),
      ai_generate_reply ⟨some k, false⟩ mem ut .err oll =
        (offlineReply ut, [ProviderTag.openai, ProviderTag.offline])) ∧
    (∀ (mem : List MemEntry) (ut : Text) (oai : OpenAIOutcome),
      ai_generate_reply ⟨none, true⟩ mem ut oai .err =
        (offlineReply ut, [ProviderTag.ollama, ProviderTag.offline])) ∧
    (∀ (k : Text) (mem : List MemEntry) (ut : Text),
      ai_generate_reply ⟨some k, true⟩ mem ut .err .err =
        (offlineReply ut,
         [ProviderTag.openai, ProviderTag.ollama, ProviderTag.offline])) ∧
    (∀ (k : Text) (mem : List MemEntry) (ut d : Text),
      ai_generate_reply ⟨some k, true⟩ mem ut .err (.other d) =
        (d.take 800, [ProviderTag.openai, ProviderTag.ollama])) ∧
    (∀ (mem : List MemEntry) (ut d : Text),
      ai_generate_reply ⟨none, true⟩ mem ut .err (.other d) =
        (d.take 800, [ProviderTag.ollama])) ∧
    (∀ ut : Text, offlineReply ut ≠ []) ∧
    (∀ d : Text, d ≠ [] → d.take 800 ≠ []) := by
  refine ⟨fun _ _ _ _ => rfl, fun _ _ _ _ => rfl, fun _ _ _ => rfl,
    fun _ _ _ => rfl, fun _ _ _ _ => rfl, fun _ _ _ => rfl, ?_, ?_⟩
  · intro ut h
    have h1 := (List.append_eq_nil).mp h
    have h2 := (List.append_eq_nil).mp h1.1
    exact absurd h2.1 (by decide)
  · intro d hd
    cases d with
    | nil => exact absurd rfl hd
    | cons x xs => simp [List.take]

theorem c7_failures_absorbed_witness :
    toText "[1, 2]" ≠ ([] : Text) ∧ (toText "[1, 2]").take 800 ≠ [] :=
  ⟨by decide, c7_failures_absorbed.2.2.2.2.2.2.2 (toText "[1, 2]") (by decide)⟩

/-- C7 counterexample to the claim as stated: with OpenAI unconfigured,
Ollama enabled and the local backend answering with a parseable payload
that lacks the expected shape (a malformed response), the chain does
*not* fall through to the next provider — it returns the truncated
payload, the offline provider is never invoked, and the reply differs
from what falling through would have produced. -/
theorem c7_counterexample :
    ai_generate_reply ⟨none, true⟩ [] (toText "hi") .err
        (.other (toText "[1, 2]")) =
      (toText "[1, 2]", [ProviderTag.ollama]) ∧
    toText "[1, 2]" ≠ offlineReply (toText "hi") := by
  exact ⟨by decide, by decide⟩

/- ### C2: email validation gate -/

theorem dropWhile_eq_self_of_all (p : Char → Bool) (l : List Char)
    (h : ∀ x ∈ l, p x = false) : l.dropWhile p = l := by
  cases l with
  | nil => rfl
  | cons x xs => simp [List.dropWhile, h x (by simp)]

theorem pyStrip_of_noWs (l : Text) (h : ∀ x ∈ l, pyIsSpace x = false) :
    pyStrip l = l := by
  unfold pyStrip
  rw [dropWhile_eq_self_of_all _ _ h,
    dropWhile_eq_self_of_all _ _ (fun x hx => h x (List.mem_reverse.mp hx)),
    List.reverse_reverse]

/-- A stripped string never ends in whitespace. -/
theorem pyStrip_last_not_ws (l : Text) (c : Char)
    (h : (pyStrip l).getLast? = some c) : pyIsSpace c = false := by
  unfold pyStrip at h
  rw [List.getLast?_reverse] at h
  obtain ⟨r, hr⟩ :
      ∃ r, (l.dropWhile pyIsSpace).reverse.dropWhile pyIsSpace = c :: r := by
    cases hd : (l.dropWhile pyIsSpace).reverse.dropWhile pyIsSpace with
    | nil => rw [hd] at h; simp at h
    | cons y r =>
        rw [hd] at h
        simp only [List.head?_cons, Option.some.injEq] at h
        subst h
        exact ⟨r, rfl⟩
  exact dropWhile_head_false _ _ _ _ hr

/-- On stripped input — the only way `collect_email` ever calls it — the
full Python match coincides with the plain anchored match (the
trailing-newline allowance of `$` cannot fire). -/
theorem EMAIL_RE_match_pyStrip (s : Text) :
    EMAIL_RE_match (pyStrip s) = EMAIL_RE_core (pyStrip s) := by
  unfold EMAIL_RE_match
  cases hd : (pyStrip s).getLast? with
  | none => simp [hd]
  | some c =>
      have hws := pyStrip_last_not_ws s c hd
      have hne : c ≠ Char.ofNat 10 := by
        intro hcc
        rw [hcc] at hws
        exact absurd hws (by decide)
      simp [hd, hne]

/-- C2 (amended): in `COLLECT_EMAIL` the handler first strips surrounding
whitespace; if the *stripped* text matches the `local@domain.tld` shape
it stores the stripped email and advances to `COLLECT_NOTE`, otherwise it
re-prompts and stays in `COLLECT_EMAIL` storing nothing.  In particular
every input that itself matches the shape is stored unchanged
(stripping is the identity on it) and advances. -/
theorem c2_email_validation :
    ∀ (u : TgUser) (ts : Text) (ud : UserData) (file : Option (List Row))
      (s : Text),
      (matchesShape (pyStrip s) →
        convStep u ts ⟨.CollectEmail, ud⟩ file (.text s) =
          (⟨.CollectNote, { ud with lead_email := some (pyStrip s) }⟩, file,
           some askNote)) ∧
      (¬ matchesShape (pyStrip s) →
        convStep u ts ⟨.CollectEmail, ud⟩ file (.text s) =
          (⟨.CollectEmail, ud⟩, file, some emailRetry)) ∧
      (matchesShape s → pyStrip s = s) := by
  intro u ts ud file s
  refine ⟨?_, ?_, ?_⟩
  · intro h
    have hc : EMAIL_RE_match (pyStrip s) = true := by
      rw [EMAIL_RE_match_pyStrip]
      exact (matchesShape_iff_core _).mp h
    simp [convStep, collect_email, hc]
  · intro h
    have hc : EMAIL_RE_match (pyStrip s) = false := by
      cases hb : EMAIL_RE_match (pyStrip s)
      · rfl
      · rw [EMAIL_RE_match_pyStrip] at hb
        exact absurd ((matchesShape_iff_core _).mpr hb) h
    simp [convStep, collect_email, hc]
  · rintro ⟨a, b, c, rfl, -, -, -, hws, -⟩
    exact pyStrip_of_noWs _ hws

/-- A throwaway user identity for concrete instances. -/
def u0 : TgUser := ⟨7, none⟩

theorem c2_email_validation_witness :
    matchesShape (pyStrip (toText "a@b.c")) ∧
    convStep u0 (toText "t") ⟨.CollectEmail, udEmpty⟩ (some [csvHeader])
        (.text (toText "a@b.c")) =
      (⟨.CollectNote, { udEmpty with lead_email := some (pyStrip (toText "a@b.c")) }⟩,
       some [csvHeader], some askNote) :=
  ⟨(matchesShape_iff_core _).mpr (by decide),
   (c2_email_validation u0 (toText "t") udEmpty (some [csvHeader])
      (toText "a@b.c")).1 ((matchesShape_iff_core _).mpr (by decide))⟩

/-- C2 counterexample to the claim as stated: the input `" a@b.c "` does
not match the `local@domain.tld` shape (it contains whitespace), yet the
handler does not re-prompt and stay — it strips the input, stores the
stripped email and advances to `COLLECT_NOTE`. -/
theorem c2_counterexample :
    ¬ matchesShape (toText " a@b.c ") ∧
    (convStep u0 (toText "t") ⟨.CollectEmail, udEmpty⟩ (some [csvHeader])
        (.text (toText " a@b.c "))).1 =
      ⟨.CollectNote, { udEmpty with lead_email := some (toText "a@b.c") }⟩ := by
  constructor
  · intro h
    exact absurd ((matchesShape_iff_core _).mp h) (by decide)
  · decide

/- ### C1: the lead log is written only by a completed flow -/

/-- Reachability invariant of the collection flow: at the email stage the
name (and the default need) have been collected; at the note stage the
validated email has been collected as well. -/
def InvC1 : FlowState → Prop
  | ⟨.Idle, _⟩ => True
  | ⟨.CollectName, ud⟩ => ud.lead_need = some needDefault
  | ⟨.CollectEmail, ud⟩ =>
      ud.lead_need = some needDefault ∧ ud.lead_name.isSome = true
  | ⟨.CollectNote, ud⟩ =>
      ud.lead_need = some needDefault ∧ ud.lead_name.isSome = true ∧
      ∃ e, ud.lead_email = some e ∧ EMAIL_RE_match e = true

theorem invC1_note (st : FlowState) (h : InvC1 st)
    (hc : st.conv = .CollectNote) :
    st.ud.lead_need = some needDefault ∧ st.ud.lead_name.isSome = true ∧
    ∃ e, st.ud.lead_email = some e ∧ EMAIL_RE_match e = true := by
  obtain ⟨cv, ud⟩ := st
  cases cv
  · exact nomatch hc
  · exact nomatch hc
  · exact nomatch hc
  · exact h

theorem invC1_step (u : TgUser) (ts : Text) (st : FlowState)
    (file : Option (List Row)) (inp : FlowInput) (h : InvC1 st) :
    InvC1 (convStep u ts st file inp).1 := by
  obtain ⟨cv, ud⟩ := st
  cases cv with
  | Idle =>
      cases inp with
      | contactCmd =>
          show InvC1 ⟨.CollectName, { ud with lead_need := some needDefault }⟩
          exact rfl
      | cancelCmd => exact trivial
      | text s => exact trivial
  | CollectName =>
      cases inp with
      | contactCmd => exact h
      | cancelCmd => exact trivial
      | text s =>
          show InvC1 ⟨.CollectEmail, { ud with lead_name := some (pyStrip s) }⟩
          exact ⟨h, rfl⟩
  | CollectEmail =>
      cases inp with
      | contactCmd => exact h
      | cancelCmd => exact trivial
      | text s =>
          by_cases hcond : EMAIL_RE_match (pyStrip s) = true
          · have hred :
                (convStep u ts ⟨.CollectEmail, ud⟩ file (.text s)).1 =
                  ⟨.CollectNote, { ud with lead_email := some (pyStrip s) }⟩ := by
              simp [convStep, collect_email, hcond]
            rw [hred]
            exact ⟨h.1, h.2, pyStrip s, rfl, hcond⟩
          · have hf : EMAIL_RE_match (pyStrip s) = false := by simpa using hcond
            have hred :
                (convStep u ts ⟨.CollectEmail, ud⟩ file (.text s)).1 =
                  ⟨.CollectEmail, ud⟩ := by
              simp [convStep, collect_email, hf]
            rw [hred]
            exact h
  | CollectNote =>
      cases inp with
      | contactCmd => exact h
      | cancelCmd => exact trivial
      | text s => exact trivial

theorem invC1_run (u : TgUser) (ts : Text) (inputs : List FlowInput) :
    ∀ (st : FlowState) (file : Option (List Row)),
      InvC1 st → InvC1 (runFlow u ts (st, file) inputs).1 := by
  induction inputs with
  | nil => intro st file h; exact h
  | cons i is ih =>
      intro st file h
      exact ih _ _ (invC1_step u ts st file i h)

/-- C1: (a) a dispatch step changes the lead log only at the note stage on
a text message; (b) that write appends exactly one row built from the
session fields and the user's identity; (c) completing the three stages
in order from `Idle` appends exactly one record whose `need` is the
default; (d) cancelling before the note is collected leaves the log
untouched; (e) the note stage is reachable from `Idle` only with the name
collected, the default need, and a validated email stored. -/
theorem c1_lead_write_protocol :
    (∀ (u : TgUser) (ts : Text) (st : FlowState) (file : Option (List Row))
        (inp : FlowInput),
      (convStep u ts st file inp).2.1 ≠ file →
        st.conv = .CollectNote ∧ ∃ s, inp = .text s) ∧
    (∀ (u : TgUser) (ts : Text) (ud : UserData) (file : Option (List Row))
        (s : Text),
      (convStep u ts ⟨.CollectNote, ud⟩ file (.text s)).2.1 =
        some (ensure_leads_csv file ++
          [[ts, ud.lead_name.getD [], ud.lead_email.getD [],
            ud.lead_need.getD needDefault, mkFrom u, u.username.getD [],
            pyStrip s]])) ∧
    (∀ (u : TgUser) (ts : Text) (ud₀ : UserData) (rows₀ : List Row)
        (n e t : Text),
      EMAIL_RE_match (pyStrip e) = true →
      runFlow u ts (⟨.Idle, ud₀⟩, some rows₀)
          [.contactCmd, .text n, .text e, .text t] =
        (⟨.Idle, { ud₀ with lead_need := some needDefault, lead_name := some (pyStrip n), lead_email := some (pyStrip e) }⟩,
         some (rows₀ ++
           [[ts, pyStrip n, pyStrip e, needDefault, mkFrom u,
             u.username.getD [], pyStrip t]]))) ∧
    (∀ (u : TgUser) (ts : Text) (ud₀ : UserData) (file₀ : Option (List Row))
        (n e : Text),
      (runFlow u ts (⟨.Idle, ud₀⟩, file₀) [.contactCmd, .cancelCmd]).2 = file₀ ∧
      (runFlow u ts (⟨.Idle, ud₀⟩, file₀)
        [.contactCmd, .text n, .cancelCmd]).2 = file₀ ∧
      (runFlow u ts (⟨.Idle, ud₀⟩, file₀)
        [.contactCmd, .text n, .text e, .cancelCmd]).2 = file₀) ∧
    (∀ (u : TgUser) (ts : Text) (ud₀ : UserData) (file₀ : Option (List Row))
        (inputs : List FlowInput),
      (runFlow u ts (⟨.Idle, ud₀⟩, file₀) inputs).1.conv = .CollectNote →
        (runFlow u ts (⟨.Idle, ud₀⟩, file₀) inputs).1.ud.lead_need =
          some needDefault ∧
        (runFlow u ts (⟨.Idle, ud₀⟩, file₀) inputs).1.ud.lead_name.isSome =
          true ∧
        ∃ e, (runFlow u ts (⟨.Idle, ud₀⟩, file₀) inputs).1.ud.lead_email =
          some e ∧ EMAIL_RE_match e = true) := by
  refine ⟨?_, ?_, ?_, ?_, ?_⟩
  · intro u ts st file inp hne
    obtain ⟨cv, ud⟩ := st
    cases cv <;> cases inp <;> try exact absurd rfl hne
    rename_i s
    exact ⟨rfl, s, rfl⟩
  · intro u ts ud file s
    rfl
  · intro u ts ud₀ rows₀ n e t hm
    simp [runFlow, convStep, contact_start, collect_name, collect_email,
      collect_note, save_lead, ensure_leads_csv, hm]
  · intro u ts ud₀ file₀ n e
    refine ⟨rfl, rfl, ?_⟩
    cases hb : EMAIL_RE_match (pyStrip e) <;>
      simp [runFlow, convStep, contact_start, collect_name, collect_email, hb]
  · intro u ts ud₀ file₀ inputs hconv
    have hinv := invC1_run u ts inputs ⟨.Idle, ud₀⟩ file₀ trivial
    exact invC1_note _ hinv hconv

/-- The concrete user of the spec's completion example. -/
def uAli : TgUser := ⟨123, some (toText "ali")⟩

theorem c1_lead_write_protocol_witness :
    EMAIL_RE_match (pyStrip (toText "ali@example.com")) = true ∧
    runFlow uAli (toText "2024-01-01T00:00:00") (⟨.Idle, udEmpty⟩, some [csvHeader])
        [.contactCmd, .text (toText "Ali"), .text (toText "ali@example.com"),
         .text (toText "need a website")] =
      (⟨.Idle, { udEmpty with lead_need := some needDefault, lead_name := some (pyStrip (toText "Ali")), lead_email := some (pyStrip (toText "ali@example.com")) }⟩,
       some ([csvHeader] ++
         [[toText "2024-01-01T00:00:00", pyStrip (toText "Ali"),
           pyStrip (toText "ali@example.com"), needDefault, mkFrom uAli,
           uAli.username.getD [], pyStrip (toText "need a website")]])) :=
  ⟨by decide,
   c1_lead_write_protocol.2.2.1 uAli (toText "2024-01-01T00:00:00") udEmpty
     [csvHeader] (toText "Ali") (toText "ali@example.com")
     (toText "need a website") (by decide)⟩

/- ### C8: cancel works from every stage -/

/-- C8: from each collection stage, `/cancel` returns the flow to `Idle`
(no active session remains), replies with the cancellation
acknowledgment, and leaves the lead log untouched. -/
theorem c8_cancel_from_any_stage :
    ∀ (u : TgUser) (ts : Text) (ud : UserData) (file : Option (List Row)),
      convStep u ts ⟨.CollectName, ud⟩ file .cancelCmd =
        (⟨.Idle, ud⟩, file, some cancelMsg) ∧
      convStep u ts ⟨.CollectEmail, ud⟩ file .cancelCmd =
        (⟨.Idle, ud⟩, file, some cancelMsg) ∧
      convStep u ts ⟨.CollectNote, ud⟩ file .cancelCmd =
        (⟨.Idle, ud⟩, file, some cancelMsg) :=
  fun _ _ _ _ => ⟨rfl, rfl, rfl⟩

/- ### C10: ending the flow does not touch user_data -/

/-- C10: neither completing the flow (the note step) nor cancelling it
deletes anything from `user_data`: the ending step leaves the per-user
store exactly as the stage handlers left it. -/
theorem c10_frame :
    ∀ (u : TgUser) (ts : Text) (ud : UserData) (file : Option (List Row))
      (s : Text),
      ((convStep u ts ⟨.CollectNote, ud⟩ file (.text s)).1.ud = ud) ∧
      (∀ cv : ConvState, (convStep u ts ⟨cv, ud⟩ file .cancelCmd).1.ud = ud) := by
  intro u ts ud file s
  refine ⟨rfl, ?_⟩
  intro cv
  cases cv <;> rfl

end TGBot
